import Mathlib

/-!
Verification of the interactive-widgets notebook (`interactive-widgets-checkpoint.ipynb`)
against its specification.

The notebook's own code is a handful of drawing functions built on the `flat` 2D
drawing library and numpy's global pseudo-random generator.  We embed:

* a deterministic model of numpy's global generator as explicit state passing
  (the concrete bit-stream of numpy's Mersenne Twister is irrelevant to every
  claim below — only deterministic state threading and the count of draws
  matter — so a linear congruential stand-in generator is used, with one state
  advance per draw);
* the fragment of `flat` the notebook uses (document/page, shape pen with
  fill/stroke/width, rectangle and ellipse placement), rationals standing in
  for Python floats;
* the notebook's functions `hex2rgb`, `disp_square`, `rand_ellipses`,
  `rand_ellipses_seed`, `rand_alpha_ellipses`, translated line by line;
* the spec's Control Registry and Render Dispatcher (§4.1, §4.2), which have
  no implementation in the repository, modelled from the spec's words.
-/

/-- State of the (global, in the source) numpy pseudo-random generator,
modelled as an explicit value threaded through each call. -/
abbrev RState : Type := Nat

/-- Model of `np.random.seed(n)`: the generator state afterwards is a function
of the seed alone, independent of all prior draws. -/
def npSeed (n : Nat) : RState := n % 2 ^ 31

/-- One state advance of the modelled generator (linear congruential stand-in
for numpy's Mersenne Twister; the claims depend only on determinism and on
one advance per draw, never on the concrete values). -/
def lcgNext (s : RState) : RState := (1103515245 * s + 12345) % 2 ^ 31

/-- Model of `np.random.uniform(high)`: advances the generator state once and
returns a deterministic value in [0, high). -/
def npUniform (high : ℚ) (s : RState) : ℚ × RState :=
  let s' := lcgNext s
  (high * (s' : ℚ) / 2 ^ 31, s')

/-- Model of `np.random.normal(mu, sigma)`: advances the generator state once
and returns a deterministic value (stand-in stream, distinct from `npUniform`). -/
def npNormal (mu sigma : ℚ) (s : RState) : ℚ × RState :=
  let s' := lcgNext s
  (mu + sigma * ((s' : ℚ) / 2 ^ 31 - 1 / 2), s')

/-- Model of flat's colors: `rgb(r, g, b)` and `rgba(r, g, b, a)`. -/
inductive Color : Type
  | rgbC (r g b : ℚ)
  | rgbaC (r g b a : ℚ)
deriving DecidableEq, Repr

/-- Model of flat's `rgb(r, g, b)` constructor. -/
def rgb (r g b : ℚ) : Color := Color.rgbC r g b

/-- Model of flat's `rgba(r, g, b, a)` constructor. -/
def rgba (r g b a : ℚ) : Color := Color.rgbaC r g b a

/-- Pen state of a flat `shape()`: fill, stroke and stroke width, each as last
set by the chained `.fill` / `.stroke` / `.width` / `.nostroke` / `.nofill`
calls. -/
structure Pen : Type where
  fillC : Option Color
  strokeC : Option Color
  strokeW : ℚ
deriving DecidableEq, Repr

/-- Model of flat's `shape()` constructor.  The default fill, stroke and width
are never observable in the notebook's claims (every pen sets them before
placing), so any defaults serve; black stroke of width 1, no fill. -/
def shape : Pen := ⟨none, some (rgb 0 0 0), 1⟩

/-- Model of `.fill(c)`. -/
def Pen.fill (p : Pen) (c : Color) : Pen := { p with fillC := some c }

/-- Model of `.stroke(c)`. -/
def Pen.stroke (p : Pen) (c : Color) : Pen := { p with strokeC := some c }

/-- Model of `.width(w)`. -/
def Pen.width (p : Pen) (w : ℚ) : Pen := { p with strokeW := w }

/-- Model of `.nostroke()`. -/
def Pen.nostroke (p : Pen) : Pen := { p with strokeC := none }

/-- Model of `.nofill()`. -/
def Pen.nofill (p : Pen) : Pen := { p with fillC := none }

/-- Geometry of a placed item: `pen.rectangle(x, y, w, h)` or
`pen.ellipse(cx, cy, rx, ry)`. -/
inductive Geom : Type
  | rectangle (x y w h : ℚ)
  | ellipse (cx cy rx ry : ℚ)
deriving DecidableEq, Repr

/-- An item placed on a page: its geometry styled by the pen that drew it. -/
structure Placed : Type where
  geom : Geom
  style : Pen
deriving DecidableEq, Repr

/-- Model of a flat page, as produced by `document(w, h, units).addpage()`:
dimensions, units, and the placed items in placement order. -/
structure Page : Type where
  w : ℚ
  h : ℚ
  units : String
  placed : List Placed
deriving DecidableEq, Repr

/-- Model of `document(w, h, units)` (only its `.addpage()` is ever used). -/
structure Document : Type where
  w : ℚ
  h : ℚ
  units : String
deriving DecidableEq, Repr

/-- Model of `document(w, h, units)`. -/
def document (w h : ℚ) (units : String) : Document := ⟨w, h, units⟩

/-- Model of `doc.addpage()`: a fresh page with no placed items. -/
def Document.addpage (d : Document) : Page := ⟨d.w, d.h, d.units, []⟩

/-- Model of `page.place(item)`: appends the item to the page. -/
def Page.place (p : Page) (item : Placed) : Page :=
  { p with placed := p.placed ++ [item] }

/-- Model of `pen.rectangle(x, y, w, h)`. -/
def Pen.rectangle (p : Pen) (x y w h : ℚ) : Placed :=
  ⟨Geom.rectangle x y w h, p⟩

/-- Model of `pen.ellipse(cx, cy, rx, ry)`. -/
def Pen.ellipse (p : Pen) (cx cy rx ry : ℚ) : Placed :=
  ⟨Geom.ellipse cx cy rx ry, p⟩

/-- Model of the notebook's `show(page)` helper (`display(SVG(page.svg()))`):
the displayed artifact is the page's rendered scene, identified with the page
itself in this embedding. -/
def showPage (p : Page) : Page := p

/-- The notebook's `disp_square(size)`:
`page = document(80, 80, 'mm').addpage()`,
`pen = shape().fill(rgb(120, 40, 160)).nostroke()`,
`page.place(pen.rectangle(10, 10, size, size))`, `show(page)`. -/
def disp_square (size : ℚ) : Page :=
  let page := (document 80 80 ("mm")).addpage
  let pen := (shape.fill (rgb 120 40 160)).nostroke
  let page := page.place (pen.rectangle 10 10 size size)
  showPage page

/-- Body of one iteration of the loop in `rand_ellipses` (and, identically, in
`rand_ellipses_seed`): six uniform draws `r, g, b, x, y, size`, then
`pen = shape().nostroke().fill(rgb(r, g, b))` and
`pen.ellipse(x, y, size, size)`. -/
def ellipseStep (st : RState) : Placed × RState :=
  let rs := npUniform 255 st
  let gs := npUniform 255 rs.2
  let bs := npUniform 255 gs.2
  let xs := npUniform 80 bs.2
  let ys := npUniform 80 xs.2
  let sizes := npUniform 40 ys.2
  let pen := (shape.nostroke).fill (rgb rs.1 gs.1 bs.1)
  (pen.ellipse xs.1 ys.1 sizes.1 sizes.1, sizes.2)

/-- The `for i in range(n)` loop of `rand_ellipses` / `rand_ellipses_seed`:
each iteration draws one ellipse and places it on the page. -/
def randEllipsesLoop : Nat → Page → RState → Page × RState
  | 0, page, st => (page, st)
  | n + 1, page, st =>
    let es := ellipseStep st
    randEllipsesLoop n (page.place es.1) es.2

/-- The notebook's `rand_ellipses(n)`: a fresh 80×80 mm page, `n` loop
iterations each placing one randomly colored, positioned and sized circle,
then `show(page)`.  The global generator state is threaded explicitly. -/
def rand_ellipses (n : Nat) (st : RState) : Page × RState :=
  let page := (document 80 80 ("mm")).addpage
  let ps := randEllipsesLoop n page st
  (showPage ps.1, ps.2)

/-- The notebook's `rand_ellipses_seed(n)`: identical to `rand_ellipses`
except that it begins with `np.random.seed(12345)`, discarding the incoming
global generator state. -/
def rand_ellipses_seed (n : Nat) (st : RState) : Page × RState :=
  let st2 := npSeed 12345
  let page := (document 80 80 ("mm")).addpage
  let ps := randEllipsesLoop n page st2
  (showPage ps.1, ps.2)

/-- The ellipse list produced by `n` iterations of the loop from a given
generator state, with the final state (specification-side view of
`randEllipsesLoop`, used to state and prove prefix properties). -/
def ellList : Nat → RState → List Placed × RState
  | 0, st => ([], st)
  | n + 1, st =>
    let es := ellipseStep st
    let rest := ellList n es.2
    (es.1 :: rest.1, rest.2)

/-- Decides whether a placed item is a circle: an ellipse with equal x- and
y-radii. -/
def isCircle (p : Placed) : Bool :=
  match p.geom with
  | Geom.ellipse _ _ rx ry => rx == ry
  | _ => false

/-- Decides whether a character is an ASCII hexadecimal digit
(`0`–`9`, `a`–`f`, `A`–`F`; code points 48–57, 97–102, 65–70). -/
def isHexDig (c : Char) : Bool :=
  (48 ≤ c.toNat && c.toNat ≤ 57) || (97 ≤ c.toNat && c.toNat ≤ 102) ||
    (65 ≤ c.toNat && c.toNat ≤ 70)

/-- Numeric value of a hexadecimal digit character
(`0` = 48 maps to 0, `a` = 97 to 10, `A` = 65 to 10). -/
def hexVal (c : Char) : Nat :=
  if 48 ≤ c.toNat ∧ c.toNat ≤ 57 then c.toNat - 48
  else if 97 ≤ c.toNat then c.toNat - 87
  else c.toNat - 55

/-- Decides whether a character is ASCII whitespace as stripped by Python's
`int` (space, tab, newline, carriage return, vertical tab, form feed). -/
def isPySpace (c : Char) : Bool :=
  c == ' ' || c == '\t' || c == '\n' || c == '\x0d' || c == '\x0b' || c == '\x0c'

/-- Continuation of parsing a base-16 digit run with accumulator, allowing a
single underscore between two digits as Python's `int` does. -/
def hexMore : List Char → Nat → Option Nat
  | [], acc => some acc
  | c :: rest, acc =>
    if c = '_' then
      match rest with
      | [] => none
      | d :: rest2 => if isHexDig d then hexMore rest2 (acc * 16 + hexVal d) else none
    else if isHexDig c then hexMore rest (acc * 16 + hexVal c) else none

/-- Parses a nonempty base-16 digit run (with Python's underscore rule);
`none` models `ValueError`. -/
def hexCore : List Char → Option Nat
  | [] => none
  | c :: rest => if isHexDig c then hexMore rest (hexVal c) else none

/-- Strips leading and trailing Python whitespace from a character list. -/
def stripWs (l : List Char) : List Char :=
  ((l.dropWhile isPySpace).reverse.dropWhile isPySpace).reverse

/-- Model of Python's `int(s, 16)` on the strings reachable in `hex2rgb`
(length at most 2, so the `0x`/`0X` base marker — which would need a digit
after it to succeed — behaves identically whether special-cased or not, and
interior whitespace cannot occur): strip surrounding whitespace, accept an
optional sign, then a nonempty hexadecimal digit run; `none` models
`ValueError`. -/
def pyIntHex (l : List Char) : Option Int :=
  let t := stripWs l
  match t with
  | [] => none
  | c :: rest =>
    if c = '+' then (hexCore rest).map (fun n => (n : Int))
    else if c = '-' then (hexCore rest).map (fun n => -(n : Int))
    else (hexCore t).map (fun n => (n : Int))

/-- Model of the Python slice `l[i:j]` for nonnegative `i ≤ j`. -/
def pySlice (l : List Char) (i j : Nat) : List Char :=
  (l.drop i).take (j - i)

/-- The notebook's `hex2rgb(s)` on the underlying character list:
`s = s.lstrip("#")` then `[int(s[i:i+2], 16) for i in range(0, 5, 2)]`,
i.e. the slices at positions 0–2, 2–4, 4–6; `none` models the `ValueError`
raised when any slice fails to parse. -/
def hex2rgbL (s : List Char) : Option (List Int) :=
  let t := s.dropWhile (fun c => c == '#')
  match pyIntHex (pySlice t 0 2), pyIntHex (pySlice t 2 4), pyIntHex (pySlice t 4 6) with
  | some a, some b, some c => some [a, b, c]
  | _, _, _ => none

/-- The notebook's `hex2rgb(s)` on strings. -/
def hex2rgb (s : String) : Option (List Int) := hex2rgbL s.data

/-- Body of one iteration of the loop in `rand_alpha_ellipses`: three uniform
draws `r, g, b`; positions drawn uniformly when `pos_dist == 'uniform'` and
from `normal(40, 20)` otherwise; a size draw bounded by `max_size`; then
`pen = shape().nostroke().fill(rgba(r, g, b, alpha))` and
`pen.ellipse(x, y, size, size)`. -/
def alphaEllipseStep (alpha max_size : ℚ) (pos_dist : String) (st : RState) :
    Placed × RState :=
  let rs := npUniform 255 st
  let gs := npUniform 255 rs.2
  let bs := npUniform 255 gs.2
  let xys :=
    if pos_dist == "uniform" then
      let xs := npUniform 80 bs.2
      let ys := npUniform 80 xs.2
      ((xs.1, ys.1), ys.2)
    else
      let xs := npNormal 40 20 bs.2
      let ys := npNormal 40 20 xs.2
      ((xs.1, ys.1), ys.2)
  let sizes := npUniform max_size xys.2
  let pen := (shape.nostroke).fill (rgba rs.1 gs.1 bs.1 alpha)
  (pen.ellipse xys.1.1 xys.1.2 sizes.1 sizes.1, sizes.2)

/-- The `for i in range(n)` loop of `rand_alpha_ellipses`. -/
def randAlphaLoop (alpha max_size : ℚ) (pos_dist : String) :
    Nat → Page → RState → Page × RState
  | 0, page, st => (page, st)
  | n + 1, page, st =>
    let es := alphaEllipseStep alpha max_size pos_dist st
    randAlphaLoop alpha max_size pos_dist n (page.place es.1) es.2

/-- The notebook's `rand_alpha_ellipses(n, alpha, max_size, pos_dist, seed)`:
seeds the generator with `seed` (discarding the incoming global state), builds
a fresh 80×80 mm page, runs `n` loop iterations, and shows the page. -/
def rand_alpha_ellipses (n : Nat) (alpha max_size : ℚ) (pos_dist : String)
    (seed : Nat) (st : RState) : Page × RState :=
  let st2 := npSeed seed
  let page := (document 80 80 ("mm")).addpage
  let ps := randAlphaLoop alpha max_size pos_dist n page st2
  (showPage ps.1, ps.2)

/-- Modelled from the spec: the error taxonomy of the Control Registry (§4.1,
§7), which has no implementation in the repository. -/
inductive CtrlError : Type
  | invalidBounds
  | outOfRange
  | invalidChoice
deriving DecidableEq, Repr

/-- Modelled from the spec: a numeric Control of the Control Registry (§3,
§4.1) — bounds (min, max, step), current value, and the subscribed listeners
in registration order (listeners identified abstractly by naturals).  The
Control Registry has no implementation in the repository. -/
structure Control : Type where
  vmin : Int
  vmax : Int
  step : Int
  value : Int
  listeners : List Nat
deriving DecidableEq, Repr

/-- Modelled from the spec: `create(kind, config)` for a numeric Control —
fails with `InvalidBoundsError` when min > max or step ≤ 0, otherwise returns
a new Control with the given bounds and initial value and no listeners. -/
def Control.create (vmin vmax step value : Int) : Except CtrlError Control :=
  if vmin ≤ vmax ∧ 0 < step then Except.ok ⟨vmin, vmax, step, value, []⟩
  else Except.error CtrlError.invalidBounds

/-- Modelled from the spec: `subscribe(id, listener)` registers a listener,
appended after those already registered. -/
def Control.subscribe (c : Control) (l : Nat) : Control :=
  { c with listeners := c.listeners ++ [l] }

/-- Modelled from the spec: `getValue(id)` returns the current value. -/
def Control.getValue (c : Control) : Int := c.value

/-- Modelled from the spec: `setValue(id, v)` fails with `OutOfRangeError`
when v falls outside [min, max] (leaving the control to the caller unchanged);
on success it overwrites the stored value and fires all subscribed listeners
in registration order, returning the updated control together with the
notification sequence (listener, value delivered), one entry per firing. -/
def Control.setValue (c : Control) (v : Int) :
    Except CtrlError (Control × List (Nat × Int)) :=
  if c.vmin ≤ v ∧ v ≤ c.vmax then
    Except.ok ({ c with value := v }, c.listeners.map (fun l => (l, v)))
  else Except.error CtrlError.outOfRange

/-- Modelled from the spec: the per-handle state of the Render Dispatcher
(§4.2), which has no implementation in the repository.  `running` is the
snapshot of the invocation currently in flight (if any), `pending` the latest
queued snapshot (last-write-wins), `started` the snapshots whose invocation
has begun, oldest first, and `finished` the count of completed invocations. -/
structure DispatchState (σ : Type) : Type where
  running : Option σ
  pending : Option σ
  started : List σ
  finished : Nat

/-- Modelled from the spec: an event at a dispatcher handle — a bound control
fires with a snapshot of the controls' current values, or the in-flight
invocation returns. -/
inductive DispatchEv (σ : Type) : Type
  | trigger (snap : σ)
  | ret

/-- Modelled from the spec: one step of the Render Dispatcher.  A trigger
while idle starts an invocation on the given snapshot; a trigger while an
invocation is in flight overwrites the pending snapshot (last-write-wins
coalescing).  When the in-flight invocation returns, the pending snapshot, if
any, starts strictly after it. -/
def dstep (st : DispatchState σ) : DispatchEv σ → DispatchState σ
  | DispatchEv.trigger snap =>
    match st.running with
    | none => { st with running := some snap, started := st.started ++ [snap] }
    | some _ => { st with pending := some snap }
  | DispatchEv.ret =>
    match st.running with
    | none => st
    | some _ =>
      match st.pending with
      | none => { st with running := none, finished := st.finished + 1 }
      | some snap =>
        { st with running := some snap, pending := none,
                  started := st.started ++ [snap], finished := st.finished + 1 }

/-- Modelled from the spec: the idle initial state of a freshly bound handle. -/
def dinit (σ : Type) : DispatchState σ := ⟨none, none, [], 0⟩

/-- Modelled from the spec: the dispatcher state after a sequence of events at
one handle. -/
def drun (evs : List (DispatchEv σ)) : DispatchState σ :=
  evs.foldl dstep (dinit σ)

/-- Number of invocations in flight in a dispatcher state: started and not yet
finished. -/
def inFlight (st : DispatchState σ) : Nat := st.started.length - st.finished

/-- One loop iteration advances the modelled generator state exactly six
times (one advance per `np.random.uniform` draw). -/
theorem ellipseStep_state (st : RState) : (ellipseStep st).2 = lcgNext^[6] st := rfl

/-- The loop of `rand_ellipses` accumulates, onto the incoming page, exactly
the ellipse list produced from the incoming generator state, and leaves the
generator in the corresponding final state. -/
theorem randEllipsesLoop_eq (n : Nat) : ∀ (page : Page) (st : RState),
    randEllipsesLoop n page st =
      ({ page with placed := page.placed ++ (ellList n st).1 }, (ellList n st).2) := by
  induction n with
  | zero => intro page st; simp [randEllipsesLoop, ellList]
  | succ n ih =>
    intro page st
    simp [randEllipsesLoop, ellList, ih, Page.place, List.append_assoc]

/-- The loop produces one ellipse per iteration. -/
theorem ellList_length (n : Nat) : ∀ st : RState, (ellList n st).1.length = n := by
  induction n with
  | zero => intro st; rfl
  | succ n ih => intro st; simp [ellList, ih]

/-- Every ellipse produced by the loop is a circle (equal radii). -/
theorem ellList_circles (n : Nat) : ∀ st : RState, (ellList n st).1.all isCircle = true := by
  induction n with
  | zero => intro st; rfl
  | succ n ih =>
    intro st
    simp [ellList, ih, ellipseStep, isCircle, Pen.ellipse]

/-- The loop advances the generator state exactly `6 * n` times. -/
theorem ellList_state (n : Nat) : ∀ st : RState, (ellList n st).2 = lcgNext^[6 * n] st := by
  induction n with
  | zero => intro st; rfl
  | succ n ih =>
    intro st
    have h6 : 6 * (n + 1) = 6 * n + 6 := by ring
    simp only [ellList, ih, ellipseStep_state, h6, Function.iterate_add_apply]

/-- Splitting the loop: the first `n` iterations produce the same ellipses
whether or not `k` further iterations follow. -/
theorem ellList_split (n : Nat) : ∀ (k : Nat) (st : RState),
    (ellList (n + k) st).1 = (ellList n st).1 ++ (ellList k (ellList n st).2).1 := by
  induction n with
  | zero => intro k st; simp [ellList]
  | succ n ih =>
    intro k st
    have hadd : n + 1 + k = (n + k) + 1 := by ring
    rw [hadd]
    simp [ellList, ih]

/-- C1: Seeded rendering is deterministic.  Two invocations of
`rand_ellipses_seed` with the same `n` produce identical results — the same
scene (colors, positions, sizes of every ellipse) and the same sequence of
generator states — regardless of the incoming global generator state (i.e. of
how many draws happened before either invocation), because the generator is
re-seeded with the fixed seed 12345 at the start of every call; indeed each
call coincides with `rand_ellipses` run from the freshly seeded state. -/
theorem rand_ellipses_seed_deterministic (n : Nat) (s1 s2 : RState) :
    rand_ellipses_seed n s1 = rand_ellipses_seed n s2 ∧
    rand_ellipses_seed n s1 = rand_ellipses n (npSeed 12345) :=
  ⟨rfl, rfl⟩

/-- C6: `disp_square(size)` is a pure scene builder: for every `size` it
builds a fresh 80×80 mm page whose only placed shape is a rectangle with
top-left corner (10, 10), width and height both `size`, filled with
`rgb(120, 40, 160)` and drawn with no stroke, and displays that page (the
pen's stroke width retains flat's construction default, never drawn since the
stroke is removed). -/
theorem disp_square_scene (size : ℚ) :
    disp_square size =
      ⟨80, 80, "mm",
        [⟨Geom.rectangle 10 10 size size, ⟨some (rgb 120 40 160), none, 1⟩⟩]⟩ :=
  rfl

/-- Closed form of `rand_ellipses`: the displayed page carries exactly the
ellipse list generated from the incoming state. -/
theorem rand_ellipses_eq (n : Nat) (st : RState) :
    rand_ellipses n st = (⟨80, 80, "mm", (ellList n st).1⟩, (ellList n st).2) := by
  have h := randEllipsesLoop_eq n ((document 80 80 ("mm")).addpage) st
  simp only [document, Document.addpage] at h
  simp [rand_ellipses, document, Document.addpage, showPage, h]

/-- Closed form of `rand_ellipses_seed`: the incoming generator state is
discarded and the ellipse list is generated from the freshly seeded state. -/
theorem rand_ellipses_seed_eq (n : Nat) (st : RState) :
    rand_ellipses_seed n st =
      (⟨80, 80, "mm", (ellList n (npSeed 12345)).1⟩, (ellList n (npSeed 12345)).2) :=
  rand_ellipses_eq n (npSeed 12345)

/-- C7: `rand_ellipses(n)` places exactly `n` ellipses on a fresh 80×80 mm
page, each one a circle (equal x- and y-radii) whose color, position and size
come from the pseudo-random generator, consuming exactly six draws per circle
(the final generator state is the initial one advanced `6 * n` times). -/
theorem rand_ellipses_count_and_draws (n : Nat) (st : RState) :
    (rand_ellipses n st).1.w = 80 ∧ (rand_ellipses n st).1.h = 80 ∧
    (rand_ellipses n st).1.units = "mm" ∧
    (rand_ellipses n st).1.placed.length = n ∧
    (rand_ellipses n st).1.placed.all isCircle = true ∧
    (rand_ellipses n st).2 = lcgNext^[6 * n] st := by
  refine ⟨?_, ?_, ?_, ?_, ?_, ?_⟩ <;> rw [rand_ellipses_eq]
  · exact ellList_length n st
  · exact ellList_circles n st
  · exact ellList_state n st

/-- C8: prefix stability of seeded rendering.  For all `n1 ≤ n2`, the first
`n1` ellipses produced by `rand_ellipses_seed n2` are identical (fill color,
position and size) to the `n1` ellipses produced by `rand_ellipses_seed n1`,
whatever the incoming global generator states: increasing `n` only appends
ellipses, never changing the existing ones. -/
theorem rand_ellipses_seed_take_stable (n1 n2 : Nat) (s1 s2 : RState)
    (h : n1 ≤ n2) :
    List.take n1 (rand_ellipses_seed n2 s1).1.placed =
      (rand_ellipses_seed n1 s2).1.placed := by
  rw [rand_ellipses_seed_eq, rand_ellipses_seed_eq]
  have h2 : n2 = n1 + (n2 - n1) := by omega
  have hlen : (ellList n1 (npSeed 12345)).1.length = n1 := ellList_length n1 _
  rw [h2, ellList_split n1 (n2 - n1) (npSeed 12345),
      List.take_append_eq_append_take, hlen, Nat.sub_self, List.take_zero,
      List.append_nil, List.take_of_length_le (le_of_eq hlen)]

/-- Witness for C8 at `n1 = 1`, `n2 = 2`. -/
theorem rand_ellipses_seed_take_stable_witness :
    1 ≤ 2 ∧
    List.take 1 (rand_ellipses_seed 2 7).1.placed =
      (rand_ellipses_seed 1 0).1.placed :=
  ⟨by decide, rand_ellipses_seed_take_stable 1 2 7 0 (by decide)⟩

/-- For any value of `pos_dist` other than the exact string `"uniform"`, one
loop iteration of `rand_alpha_ellipses` behaves exactly as with
`pos_dist = "normal"`. -/
theorem alphaEllipseStep_default (alpha ms : ℚ) (pd : String) (st : RState)
    (h : pd ≠ "uniform") :
    alphaEllipseStep alpha ms pd st = alphaEllipseStep alpha ms ("normal") st := by
  simp [alphaEllipseStep, h]

/-- The loop of `rand_alpha_ellipses` with any `pos_dist` other than
`"uniform"` coincides with the loop for `pos_dist = "normal"`. -/
theorem randAlphaLoop_default (alpha ms : ℚ) (pd : String) (h : pd ≠ "uniform") :
    ∀ (n : Nat) (page : Page) (st : RState),
      randAlphaLoop alpha ms pd n page st = randAlphaLoop alpha ms ("normal") n page st := by
  intro n
  induction n with
  | zero => intro page st; rfl
  | succ n ih =>
    intro page st
    simp only [randAlphaLoop, alphaEllipseStep_default alpha ms pd st h, ih]

/-- C10: `rand_alpha_ellipses` does not validate its `pos_dist` parameter.
For every value of `pos_dist` other than the exact string `"uniform"` — not
only `"normal"` — the call behaves exactly as with `pos_dist = "normal"`
(positions drawn from `normal(40, 20)`), whatever the other arguments and the
incoming generator states; no value of `pos_dist` causes an error (the model
is a total function). -/
theorem rand_alpha_ellipses_pos_dist_default (n : Nat) (alpha ms : ℚ)
    (pd : String) (sd : Nat) (st1 st2 : RState) (h : pd ≠ "uniform") :
    rand_alpha_ellipses n alpha ms pd sd st1 =
      rand_alpha_ellipses n alpha ms ("normal") sd st2 := by
  simp only [rand_alpha_ellipses, randAlphaLoop_default alpha ms pd h]

/-- Witness for C10 at `pos_dist = "gaussian"`. -/
theorem rand_alpha_ellipses_pos_dist_default_witness :
    ("gaussian" ≠ "uniform") ∧
    rand_alpha_ellipses 2 255 40 ("gaussian") 1 0 =
      rand_alpha_ellipses 2 255 40 ("normal") 1 3 :=
  ⟨by decide, rand_alpha_ellipses_pos_dist_default 2 255 40 ("gaussian") 1 0 3 (by decide)⟩

/-- A hexadecimal digit character is not whitespace, not `#`, not a sign, not
an underscore, and its value is at most 15. -/
theorem hexDig_facts (c : Char) (h : isHexDig c = true) :
    isPySpace c = false ∧ (c == '#') = false ∧ c ≠ '+' ∧ c ≠ '-' ∧
      c ≠ '_' ∧ hexVal c ≤ 15 := by
  refine ⟨?_, ?_, ?_, ?_, ?_, ?_⟩
  · simp only [isPySpace, Bool.or_eq_false_iff, beq_eq_false_iff_ne]
    and_intros <;> (intro he; subst he; exact absurd h (by decide))
  · rw [beq_eq_false_iff_ne]
    intro he; subst he; exact absurd h (by decide)
  · intro he; subst he; exact absurd h (by decide)
  · intro he; subst he; exact absurd h (by decide)
  · intro he; subst he; exact absurd h (by decide)
  · simp only [isHexDig, Bool.or_eq_true, Bool.and_eq_true, decide_eq_true_eq] at h
    unfold hexVal
    split_ifs <;> omega

/-- Python's `int(s, 16)` on a two-character string of hexadecimal digits
returns the two-digit base-16 value. -/
theorem pyIntHex_pair (a b : Char) (ha : isHexDig a = true) (hb : isHexDig b = true) :
    pyIntHex [a, b] = some ((hexVal a * 16 + hexVal b : Nat) : Int) := by
  obtain ⟨hsa, _, hpa, hma, hua, _⟩ := hexDig_facts a ha
  obtain ⟨hsb, _, _, _, hub, _⟩ := hexDig_facts b hb
  simp [pyIntHex, stripWs, List.dropWhile_cons, hsa, hsb, hexCore, hexMore,
        ha, hb, hpa, hma, hua, hub]

/-- Python's `int(s, 16)` on a single hexadecimal digit returns its value. -/
theorem pyIntHex_single (a : Char) (ha : isHexDig a = true) :
    pyIntHex [a] = some ((hexVal a : Nat) : Int) := by
  obtain ⟨hsa, _, hpa, hma, hua, _⟩ := hexDig_facts a ha
  simp [pyIntHex, stripWs, List.dropWhile_cons, hsa, hexCore, hexMore,
        ha, hpa, hma, hua]

/-- Leading `#` characters, and only they, are stripped before slicing. -/
theorem dropWhile_hash_replicate (k : Nat) (l : List Char) :
    List.dropWhile (fun c => c == '#') (List.replicate k '#' ++ l) =
      List.dropWhile (fun c => c == '#') l := by
  induction k with
  | zero => rfl
  | succ k ih => simp [List.replicate_succ, List.dropWhile_cons, ih]

/-- C2: the hex-string-to-RGB-triplet transform is correct.  For every string
consisting of an optional run of `#` characters followed by exactly six
hexadecimal digits, `hex2rgb` returns the list of the three integers obtained
by parsing the first, second and third pair of digits in base 16, each of
which is at most 255 (and nonnegative, being a natural number). -/
theorem hex2rgb_six_hex_digits (s : String) (k : Nat) (c0 c1 c2 c3 c4 c5 : Char)
    (hs : s.data = List.replicate k '#' ++ [c0, c1, c2, c3, c4, c5])
    (h0 : isHexDig c0 = true) (h1 : isHexDig c1 = true) (h2 : isHexDig c2 = true)
    (h3 : isHexDig c3 = true) (h4 : isHexDig c4 = true) (h5 : isHexDig c5 = true) :
    hex2rgb s =
      some [((hexVal c0 * 16 + hexVal c1 : Nat) : Int),
            ((hexVal c2 * 16 + hexVal c3 : Nat) : Int),
            ((hexVal c4 * 16 + hexVal c5 : Nat) : Int)] ∧
    hexVal c0 * 16 + hexVal c1 ≤ 255 ∧ hexVal c2 * 16 + hexVal c3 ≤ 255 ∧
    hexVal c4 * 16 + hexVal c5 ≤ 255 := by
  obtain ⟨_, hh0, _, _, _, hv0⟩ := hexDig_facts c0 h0
  obtain ⟨_, _, _, _, _, hv1⟩ := hexDig_facts c1 h1
  obtain ⟨_, _, _, _, _, hv2⟩ := hexDig_facts c2 h2
  obtain ⟨_, _, _, _, _, hv3⟩ := hexDig_facts c3 h3
  obtain ⟨_, _, _, _, _, hv4⟩ := hexDig_facts c4 h4
  obtain ⟨_, _, _, _, _, hv5⟩ := hexDig_facts c5 h5
  refine ⟨?_, by omega, by omega, by omega⟩
  unfold hex2rgb
  rw [hs]
  simp [hex2rgbL, dropWhile_hash_replicate, List.dropWhile_cons, hh0, pySlice,
        pyIntHex_pair c0 c1 h0 h1, pyIntHex_pair c2 c3 h2 h3,
        pyIntHex_pair c4 c5 h4 h5]

/-- Witness for C2 at the string `"#804a8f"`. -/
theorem hex2rgb_six_hex_digits_witness :
    String.data ("#804a8f") = List.replicate 1 '#' ++ ['8', '0', '4', 'a', '8', 'f'] ∧
    isHexDig '8' = true ∧ isHexDig '0' = true ∧ isHexDig '4' = true ∧
    isHexDig 'a' = true ∧ isHexDig 'f' = true ∧
    (hex2rgb ("#804a8f") =
       some [((hexVal '8' * 16 + hexVal '0' : Nat) : Int),
             ((hexVal '4' * 16 + hexVal 'a' : Nat) : Int),
             ((hexVal '8' * 16 + hexVal 'f' : Nat) : Int)] ∧
     hexVal '8' * 16 + hexVal '0' ≤ 255 ∧ hexVal '4' * 16 + hexVal 'a' ≤ 255 ∧
     hexVal '8' * 16 + hexVal 'f' ≤ 255) :=
  ⟨by decide, by decide, by decide, by decide, by decide, by decide,
   hex2rgb_six_hex_digits ("#804a8f") 1 '8' '0' '4' 'a' '8' 'f' (by decide)
     (by decide) (by decide) (by decide) (by decide) (by decide) (by decide)⟩

/-- The original C9 claim fails: the string `"abcde"`, whose remainder after
stripping `#` is only five characters and so does not begin with six
hexadecimal digits, nevertheless parses without error — `hex2rgb` returns
`[0xab, 0xcd, 0xe] = [171, 205, 14]`, the fifth digit alone becoming the
third component. -/
theorem hex2rgb_five_digit_counterexample :
    hex2rgb ("abcde") = some [171, 205, 14] := by decide

/-- C9 (amended): `hex2rgb` raises `ValueError` exactly when one of the three
two-character slices of the `#`-stripped string (characters 0–2, 2–4, 4–6)
fails to parse as a base-16 integer; in particular it raises for `"black"`,
for a three-digit shorthand such as `"#abc"`, and for `"abcd"` — but, per the
counterexample, not for a remainder of exactly five hexadecimal digits. -/
theorem hex2rgb_raises_iff_slice_fails (s : String) :
    (hex2rgb s = none ↔
      (pyIntHex (pySlice (s.data.dropWhile (fun c => c == '#')) 0 2) = none ∨
       pyIntHex (pySlice (s.data.dropWhile (fun c => c == '#')) 2 4) = none ∨
       pyIntHex (pySlice (s.data.dropWhile (fun c => c == '#')) 4 6) = none)) ∧
    hex2rgb ("black") = none ∧ hex2rgb ("#abc") = none ∧ hex2rgb ("abcd") = none := by
  refine ⟨?_, by decide, by decide, by decide⟩
  unfold hex2rgb hex2rgbL
  rcases hA : pyIntHex (pySlice (s.data.dropWhile (fun c => c == '#')) 0 2) with _ | a <;>
    rcases hB : pyIntHex (pySlice (s.data.dropWhile (fun c => c == '#')) 2 4) with _ | b <;>
      rcases hC : pyIntHex (pySlice (s.data.dropWhile (fun c => c == '#')) 4 6) with _ | c <;>
        simp [hA, hB, hC]

/-- One dispatcher step preserves the accounting invariant: the number of
invocations started equals the number finished, plus one exactly when an
invocation is in flight. -/
theorem dstep_inv (st : DispatchState σ) (ev : DispatchEv σ)
    (h : st.started.length = st.finished + (if st.running.isSome then 1 else 0)) :
    (dstep st ev).started.length =
      (dstep st ev).finished + (if (dstep st ev).running.isSome then 1 else 0) := by
  cases ev with
  | trigger snap =>
    cases hr : st.running <;> rw [hr] at h <;> simp [dstep, hr] at h ⊢ <;> omega
  | ret =>
    cases hr : st.running with
    | none => rw [hr] at h; simpa [dstep, hr] using h
    | some s0 =>
      rw [hr] at h
      cases hp : st.pending <;> simp [dstep, hr, hp] at h ⊢ <;> omega

/-- The accounting invariant holds after any event sequence from any state
satisfying it. -/
theorem dfold_inv (evs : List (DispatchEv σ)) : ∀ st : DispatchState σ,
    st.started.length = st.finished + (if st.running.isSome then 1 else 0) →
    (evs.foldl dstep st).started.length =
      (evs.foldl dstep st).finished +
        (if (evs.foldl dstep st).running.isSome then 1 else 0) := by
  induction evs with
  | nil => intro st h; simpa using h
  | cons ev evs ih => intro st h; exact ih (dstep st ev) (dstep_inv st ev h)

/-- C3: coalescing.  For every event sequence at a bound handle, at most one
render-function invocation is in flight at any time; and when a bound control
is triggered twice in rapid succession while the first invocation is still
executing (trigger, trigger, return, return), exactly two invocations occur
in total — on the first snapshot and then on the second, latest snapshot (the
intermediate snapshot sequence started is `[s1, s2]`, not three entries and
not ending with the stale `s1`). -/
theorem dispatcher_coalescing (σ : Type) (evs : List (DispatchEv σ)) (s1 s2 : σ) :
    inFlight (drun evs) ≤ 1 ∧
    (drun [DispatchEv.trigger s1, DispatchEv.trigger s2,
           DispatchEv.ret, DispatchEv.ret]).started = [s1, s2] ∧
    (drun [DispatchEv.trigger s1, DispatchEv.trigger s2,
           DispatchEv.ret, DispatchEv.ret]).finished = 2 := by
  refine ⟨?_, rfl, rfl⟩
  have h := dfold_inv evs (dinit σ) (by simp [dinit])
  unfold inFlight drun
  split at h <;> omega

/-- C4: for every Control created with valid bounds and every value `v`: if
`v` lies in `[min, max]` then `setValue v` succeeds, and `getValue` on the
resulting control returns `v`; if `v` lies outside `[min, max]` then
`setValue` fails with `OutOfRangeError` (the caller's control, being returned
unreplaced, keeps its stored value). -/
theorem control_setValue_range (a b stp v0 v : Int) (c : Control)
    (hc : Control.create a b stp v0 = Except.ok c) :
    ((a ≤ v ∧ v ≤ b) →
      ∃ ns, c.setValue v = Except.ok ({ c with value := v }, ns) ∧
        Control.getValue { c with value := v } = v) ∧
    (¬(a ≤ v ∧ v ≤ b) →
      c.setValue v = Except.error CtrlError.outOfRange) := by
  unfold Control.create at hc
  split at hc
  · injection hc with h1
    subst h1
    constructor
    · intro hv
      refine ⟨([] : List Nat).map (fun l => (l, v)), ?_, rfl⟩
      rw [Control.setValue, if_pos]
      exact hv
    · intro hv
      rw [Control.setValue, if_neg]
      exact hv
  · exact Except.noConfusion hc

/-- Witness for C4: a control bounded [0, 10] with initial value 5 and the
in-range value 8. -/
theorem control_setValue_range_witness :
    Control.create 0 10 1 5 = Except.ok ⟨0, 10, 1, 5, []⟩ ∧
    ((((0 : Int) ≤ 8 ∧ (8 : Int) ≤ 10) →
        ∃ ns, Control.setValue ⟨0, 10, 1, 5, []⟩ 8 =
            Except.ok (⟨0, 10, 1, 8, []⟩, ns) ∧
          Control.getValue ⟨0, 10, 1, 8, []⟩ = 8) ∧
     (¬((0 : Int) ≤ 8 ∧ (8 : Int) ≤ 10) →
        Control.setValue ⟨0, 10, 1, 5, []⟩ 8 = Except.error CtrlError.outOfRange)) :=
  ⟨by rfl, control_setValue_range 0 10 1 5 8 ⟨0, 10, 1, 5, []⟩ (by rfl)⟩

/-- C5: a single successful `setValue` fires each of the subscribed listeners
exactly once, synchronously, in registration order: the notification sequence
is the registration list mapped to (listener, new value) pairs, so the
sequence of notified listeners equals the registration list and its length is
the number of listeners. -/
theorem control_setValue_fires_listeners (c : Control) (v : Int)
    (h1 : c.vmin ≤ v) (h2 : v ≤ c.vmax) :
    c.setValue v =
        Except.ok ({ c with value := v }, c.listeners.map (fun l => (l, v))) ∧
    (c.listeners.map (fun l => (l, v))).map Prod.fst = c.listeners ∧
    (c.listeners.map (fun l => (l, v))).length = c.listeners.length := by
  refine ⟨?_, ?_, by simp⟩
  · rw [Control.setValue, if_pos ⟨h1, h2⟩]
  · simp [Function.comp_def]

/-- Witness for C5: three listeners subscribed in the order 4, 2, 9 all fire
once, in that order. -/
theorem control_setValue_fires_listeners_witness :
    ((0 : Int) ≤ 7) ∧ ((7 : Int) ≤ 10) ∧
    (Control.setValue ⟨0, 10, 1, 5, [4, 2, 9]⟩ 7 =
        Except.ok (⟨0, 10, 1, 7, [4, 2, 9]⟩, [(4, 7), (2, 7), (9, 7)]) ∧
     ([(4, 7), (2, 7), (9, 7)] : List (Nat × Int)).map Prod.fst = [4, 2, 9] ∧
     ([(4, 7), (2, 7), (9, 7)] : List (Nat × Int)).length =
       ([4, 2, 9] : List Nat).length) :=
  ⟨by decide, by decide,
   control_setValue_fires_listeners ⟨0, 10, 1, 5, [4, 2, 9]⟩ 7 (by decide) (by decide)⟩
